import Mathlib

/-!
Verification development for the Glass Box Planner analysis engine
(`src/analysis_engine.py`).

The engine is a batch pipeline over a parcel table (a GeoDataFrame):
geometry preparation (buffering), a spatial join producing directed
adjacency pairs, a directional compatibility-matrix lookup realised as a
left merge, a per-parcel groupby-minimum aggregation with a default of 5,
an integer cast, and two summary reports.

The shallow embedding below follows `run_analysis` and `generate_reports`
stage by stage:

  * a `GeoDataFrame` is a column list plus rows, each row an association
    list of attributes and a geometry (a finite set of rational points —
    a polygon is modelled by its point set, which is what the buffered
    intersection test consumes);
  * `sjoin(gdf, gdf_buffered, predicate="intersects")` on a geometry and a
    buffered region holds iff some point of the left geometry is within the
    buffer distance of some point of the right geometry (`withinDist`);
  * `compatibility_matrix.stack()` drops blank (NaN) cells (`matrixLong`);
  * the two left merges are modelled by `withRightUses` and `scoreLookup`
    (an unmatched key yields an unresolved row, matched keys multiply);
  * `groupby('unique_id_left')['score'].min()` skips unresolved (NaN)
    scores and yields NaN for an all-NaN group (`finalScore`, `listMinQ`);
  * `.fillna(5)` and `.astype('Int64')` are `fillScore` and `allInt`
    (the cast fails on a non-integral value, as pandas' safe cast does);
  * CRS handling: an undefined CRS only warns; a geographic CRS warns and
    reprojects via an externally supplied transformation (`reproj`
    parameter, standing for `to_crs(estimate_utm_crs())`);
  * group-key ordering of pandas reports is not modelled (no claim
    depends on row order of the detailed report).
-/

namespace GlassBox

/-- A cell value of the parcel table: string, integer or floating
(modelled as rational) data. -/
inductive Value where
  | str (s : String)
  | int (z : ℤ)
  | num (q : ℚ)
deriving DecidableEq, Repr

/-- A geometry, modelled by a finite set of points of the plane with
rational coordinates. -/
abbrev Geom := List (ℚ × ℚ)

/-- One row of the parcel table: named attributes plus a geometry. -/
structure Row where
  attrs : List (String × Value)
  geom : Geom
deriving DecidableEq, Repr

/-- The parcel table (a GeoDataFrame): column names plus rows. -/
structure GeoDataFrame where
  cols : List String
  rows : List Row
deriving DecidableEq, Repr

/-- The kind of coordinate reference system attached to the input. -/
inductive CRS where
  | undefined
  | projected
  | geographic
deriving DecidableEq, Repr

/-- The compatibility matrix in cell form: one entry per (row-label,
column-label) cell present in the CSV, `none` for a blank cell. -/
abbrev Matrix := List (String × String × Option ℚ)

/-- Well-formedness of a parcel table: every row carries exactly the
table's columns as attribute keys (pandas guarantees this). -/
def WF (g : GeoDataFrame) : Prop :=
  ∀ r ∈ g.rows, r.attrs.map Prod.fst = g.cols

instance (g : GeoDataFrame) : Decidable (WF g) :=
  inferInstanceAs (Decidable (∀ r ∈ g.rows, r.attrs.map Prod.fst = g.cols))

/-- Attribute lookup in a row (first matching key). -/
def attrLookup : List (String × Value) → String → Option Value
  | [], _ => none
  | kv :: rest, k => if kv.1 = k then some kv.2 else attrLookup rest k

/-- The `unique_id` value of a row (every row has one after `withUid`). -/
def rowId (r : Row) : Value :=
  (attrLookup r.attrs "unique_id").getD (Value.int 0)

/-- The land-use value of a row. -/
def rowLu (luCol : String) (r : Row) : Option Value :=
  attrLookup r.attrs luCol

/-- Squared euclidean distance between two points. -/
def sqDist (p q : ℚ × ℚ) : ℚ :=
  (p.1 - q.1) * (p.1 - q.1) + (p.2 - q.2) * (p.2 - q.2)

/-- `sjoin` intersection test of a left geometry against the right
geometry buffered by `d`: some point of `g1` lies within distance `d` of
some point of `g2`. -/
def withinDist (g1 g2 : Geom) (d : ℚ) : Bool :=
  g1.any (fun p => g2.any (fun q => decide (sqDist p q ≤ d * d)))

/-- CRS stage of `run_analysis`: an undefined CRS is left alone, a
geographic CRS is reprojected (the transformation `reproj` stands for
`to_crs(estimate_utm_crs())`, supplied externally). -/
def prepGdf (reproj : Geom → Geom) (crs : CRS) (g : GeoDataFrame) : GeoDataFrame :=
  if crs = CRS.geographic then
    { g with rows := g.rows.map (fun r => { r with geom := reproj r.geom }) }
  else g

/-- The warnings printed by the CRS stage. -/
def crsWarnings : CRS → List String
  | CRS.undefined => ["Warning: Input CRS is undefined. Results may be unreliable."]
  | CRS.geographic => ["Warning: CRS is geographic. Re-projecting to estimated UTM zone."]
  | CRS.projected => []

/-- `gdf['unique_id'] = range(len(gdf))`: attach consecutive ids starting
at `n` to the rows. -/
def addUidRows : List Row → ℕ → List Row
  | [], _ => []
  | r :: rest, n =>
      { r with attrs := r.attrs ++ [("unique_id", Value.int n)] } :: addUidRows rest (n + 1)

/-- `if 'unique_id' not in gdf.columns: gdf['unique_id'] = range(len(gdf))`. -/
def withUid (g : GeoDataFrame) : GeoDataFrame :=
  if "unique_id" ∈ g.cols then g
  else { cols := g.cols ++ ["unique_id"], rows := addUidRows g.rows 0 }

/-- A directed adjacency pair after the spatial join and the projection to
`unique_id_left`, land-use-left, `unique_id_right`. -/
structure AdjPair where
  leftId : Value
  leftLu : Option Value
  rightId : Value
deriving DecidableEq, Repr

/-- An adjacency pair after the merge with `right_uses`. -/
structure RPair where
  leftId : Value
  leftLu : Option Value
  rightId : Value
  rightLu : Option Value
deriving DecidableEq, Repr

/-- A scored pair after the matrix merge: `score = none` is the
unresolved sentinel (NaN from the left merge). -/
structure ScoredPair where
  leftId : Value
  leftLu : Option Value
  rightId : Value
  rightLu : Option Value
  score : Option ℚ
deriving DecidableEq, Repr

/-- `sjoin(gdf, gdf_buffered, predicate="intersects")` followed by the
self-pair filter `unique_id_left != unique_id_right` and the projection to
the three retained columns. -/
def adjacentPairs (g : GeoDataFrame) (luCol : String) (d : ℚ) : List AdjPair :=
  g.rows.flatMap (fun rl =>
    g.rows.filterMap (fun rr =>
      if withinDist rl.geom rr.geom d = true ∧ rowId rl ≠ rowId rr then
        some ⟨rowId rl, rowLu luCol rl, rowId rr⟩
      else none))

/-- `pd.merge(adjacent_pairs, right_uses, on='unique_id_right', how='left')`:
every row of the table with a matching id contributes its land use; an
unmatched key yields a single row with a missing (NaN) right land use. -/
def withRightUses (rows : List Row) (luCol : String) (ps : List AdjPair) : List RPair :=
  ps.flatMap (fun p =>
    let ms := rows.filter (fun r => rowId r = p.rightId)
    if ms.isEmpty then [⟨p.leftId, p.leftLu, p.rightId, none⟩]
    else ms.map (fun r => ⟨p.leftId, p.leftLu, p.rightId, rowLu luCol r⟩))

/-- `compatibility_matrix.stack()`: blank (NaN) cells are dropped. -/
def matrixLong (m : Matrix) : List (String × String × ℚ) :=
  m.filterMap (fun e => e.2.2.map (fun q => (e.1, e.2.1, q)))

/-- The vectorized score lookup: a left merge of one pair against the
stacked matrix on the ordered class pair `(use_1, use_2)`. -/
def scoreLookup (mL : List (String × String × ℚ)) (p : RPair) : List ScoredPair :=
  let ms := mL.filter (fun e =>
    decide (p.leftLu = some (Value.str e.1) ∧ p.rightLu = some (Value.str e.2.1)))
  if ms.isEmpty then [⟨p.leftId, p.leftLu, p.rightId, p.rightLu, none⟩]
  else ms.map (fun e => ⟨p.leftId, p.leftLu, p.rightId, p.rightLu, some e.2.2⟩)

/-- All scored pairs of a prepared table. -/
def scoredPairs (g : GeoDataFrame) (m : Matrix) (luCol : String) (d : ℚ) : List ScoredPair :=
  (withRightUses g.rows luCol (adjacentPairs g luCol d)).flatMap (scoreLookup (matrixLong m))

/-- The group of scored pairs of one left parcel
(`groupby('unique_id_left')`). -/
def groupPairs (sp : List ScoredPair) (id : Value) : List ScoredPair :=
  sp.filter (fun p => decide (p.leftId = id))

/-- The resolved scores of one left parcel's group. -/
def resolvedScores (sp : List ScoredPair) (id : Value) : List ℚ :=
  (groupPairs sp id).filterMap (fun p => p.score)

/-- Minimum of a list of rationals (`Series.min`), `none` on the empty
list. -/
def listMinQ : List ℚ → Option ℚ
  | [] => none
  | q :: rest =>
      match listMinQ rest with
      | none => some q
      | some m => some (min q m)

/-- `groupby('unique_id_left')['score'].min()` looked up at one id:
`none` when the id heads no pair (absent group key), otherwise the NaN-
skipping minimum of the group (inner `none` when all scores are
unresolved). -/
def finalScore (sp : List ScoredPair) (id : Value) : Option (Option ℚ) :=
  if (groupPairs sp id).isEmpty then none
  else some (listMinQ (resolvedScores sp id))

/-- The merge of the aggregated scores back onto the table followed by
`.fillna(5)`: both a missing group and an all-unresolved group default
to 5. -/
def fillScore (sp : List ScoredPair) (id : Value) : ℚ :=
  match finalScore sp id with
  | some (some q) => q
  | _ => 5

/-- `.astype('Int64')`: succeeds only when every value is integral
(pandas' safe cast raises on a non-integral float). -/
def allInt : List ℚ → Option (List ℤ)
  | [] => some []
  | q :: rest => if q.den = 1 then (allInt rest).map (fun zs => q.num :: zs) else none

/-- Overall summary report: `value_counts().sort_index()`, percentage,
then `reindex(range(1, 6), fill_value=0)` — one `(score, count,
percentage)` row per score 1..5; rows for scores outside 1..5 are
dropped by the reindex, while the percentage denominator is the full
parcel count. -/
def overallSummary (zs : List ℤ) : List (ℤ × ℕ × ℚ) :=
  (List.range 5).map (fun k : ℕ =>
    let s : ℤ := Int.ofNat k + 1
    let c := zs.count s
    (s, c, if c = 0 then 0 else 100 * (c : ℚ) / (zs.length : ℚ)))

/-- The score columns of the detailed breakdown: the columns produced by
`unstack` (the distinct scores present), completed with any of 1..5 that
are missing, then sorted ascending. -/
def detailedCols (zs : List ℤ) : List ℤ :=
  List.insertionSort (fun a b => a ≤ b) ((zs ++ [1, 2, 3, 4, 5]).dedup)

/-- Detailed breakdown report: one row per land-use class, holding the
count of parcels of the class at each score column, plus the
`total_parcels` column (the row sum over the score columns). -/
def detailedTable (pcs : List (Value × ℤ)) : List (Value × List ℕ × ℕ) :=
  let cols := detailedCols (pcs.map (fun p => p.2))
  (pcs.map (fun p => p.1)).dedup.map (fun c =>
    let counts := cols.map (fun s => pcs.count (c, s))
    (c, counts, counts.sum))

/-- The outputs of one run: printed warnings, the scored parcel table and
the two summary reports. -/
structure RunOutput where
  warnings : List String
  scored : GeoDataFrame
  overall : List (ℤ × ℕ × ℚ)
  detailedCols : List ℤ
  detailed : List (Value × List ℕ × ℕ)
deriving DecidableEq, Repr

/-- `drop(columns=['unique_id'])` on one row's attributes. -/
def dropUid : List (String × Value) → List (String × Value)
  | [] => []
  | kv :: rest => if kv.1 = "unique_id" then dropUid rest else kv :: dropUid rest

/-- The finalization of one scored row: the merge appends the
`compat_score` column, then `drop(columns=['unique_id'])`. -/
def scoreRow (r : Row) (z : ℤ) : Row :=
  { attrs := dropUid r.attrs ++ [("compat_score", Value.int z)],
    geom := r.geom }

/-- Assembly of the run's outputs from the prepared table and the cast
per-row scores. -/
def mkOutput (crs : CRS) (g : GeoDataFrame) (luCol : String) (zs : List ℤ) : RunOutput :=
  let rz := g.rows.zip zs
  { warnings := crsWarnings crs
    scored :=
      { cols := g.cols.filter (fun c => c ≠ "unique_id") ++ ["compat_score"],
        rows := rz.map (fun p => scoreRow p.1 p.2) }
    overall := overallSummary zs
    detailedCols := detailedCols zs
    detailed := detailedTable (rz.map (fun p => ((rowLu luCol p.1).getD (Value.str ""), p.2))) }

/-- The whole of `run_analysis` after data loading: land-use column
validation, CRS handling, id synthesis, adjacency join, matrix lookup,
aggregation, default fill, integer cast, column clean-up and reports.
A `.error` models the fatal `return` paths and the uncaught exceptions
(the column-collision `KeyError`, the non-integral `astype` failure);
note that no emptiness check of the parcel collection is performed. -/
def runAnalysis (reproj : Geom → Geom) (crs : CRS) (gdf : GeoDataFrame)
    (m : Matrix) (luCol : String) (d : ℚ) : Except String RunOutput :=
  if luCol ∈ gdf.cols then
    let g2 := withUid (prepGdf reproj crs gdf)
    if "compat_score" ∈ g2.cols then Except.error "KeyError: compat_score"
    else
      let sp := scoredPairs g2 m luCol d
      match allInt (g2.rows.map (fun r => fillScore sp (rowId r))) with
      | some zs => Except.ok (mkOutput crs g2 luCol zs)
      | none => Except.error "TypeError: cannot safely cast non-equivalent float64 to int64"
  else Except.error "FATAL ERROR: Land use column not found."

/-- The prepared table of a run (after CRS handling and id synthesis). -/
def preparedGdf (reproj : Geom → Geom) (crs : CRS) (g : GeoDataFrame) : GeoDataFrame :=
  withUid (prepGdf reproj crs g)

/-- The scored pairs a run aggregates. -/
def pipeScored (reproj : Geom → Geom) (crs : CRS) (g : GeoDataFrame)
    (m : Matrix) (luCol : String) (d : ℚ) : List ScoredPair :=
  scoredPairs (preparedGdf reproj crs g) m luCol d

/-- The id under which row `i` is aggregated. -/
def rowIdAt (reproj : Geom → Geom) (crs : CRS) (g : GeoDataFrame) (i : ℕ) : Value :=
  (((preparedGdf reproj crs g).rows[i]?).map rowId).getD (Value.int 0)

/-- The `compat_score` attribute of row `i` of a run's scored table. -/
def outScoreAt (out : RunOutput) (i : ℕ) : Option Value :=
  (out.scored.rows[i]?).bind (fun r => attrLookup r.attrs "compat_score")

/-- The row-pair relation of the adjacency pairs with right land uses
attached, before the matrix lookup. -/
def pipeRPairs (reproj : Geom → Geom) (crs : CRS) (g : GeoDataFrame)
    (luCol : String) (d : ℚ) : List RPair :=
  withRightUses (preparedGdf reproj crs g).rows luCol
    (adjacentPairs (preparedGdf reproj crs g) luCol d)

/-- Extract the payload of a successful run (a fixed fallback output on
the error side, used only to state witnesses at concrete inputs). -/
def okOr (e : Except String RunOutput) (dflt : RunOutput) : RunOutput :=
  match e with
  | Except.ok o => o
  | Except.error _ => dflt

/-- A degenerate output, used as the `okOr` fallback. -/
def emptyOutput : RunOutput :=
  { warnings := [], scored := { cols := [], rows := [] },
    overall := [], detailedCols := [], detailed := [] }

deriving instance DecidableEq for Except

/-! ### Concrete fixtures used to witness the theorems at concrete runs -/

/-- Four co-located parcels: a residential parcel and three neighbors. -/
def gW1 : GeoDataFrame :=
  { cols := ["use"],
    rows := [⟨[("use", Value.str "R")], [(0, 0)]⟩,
             ⟨[("use", Value.str "A")], [(0, 0)]⟩,
             ⟨[("use", Value.str "B")], [(0, 0)]⟩,
             ⟨[("use", Value.str "C")], [(0, 0)]⟩] }

/-- Scores 5, 3, 4 for the three neighbor classes of `gW1`. -/
def mW1 : Matrix := [("R", "A", some 5), ("R", "B", some 3), ("R", "C", some 4)]

/-- Two co-located parcels of classes A and B. -/
def gW2 : GeoDataFrame :=
  { cols := ["use"],
    rows := [⟨[("use", Value.str "A")], [(0, 0)]⟩,
             ⟨[("use", Value.str "B")], [(0, 0)]⟩] }

/-- A table with the land-use column but zero parcels. -/
def gEmpty : GeoDataFrame := { cols := ["use"], rows := [] }

/-- A single isolated parcel of class A. -/
def gW7 : GeoDataFrame :=
  { cols := ["use"], rows := [⟨[("use", Value.str "A")], [(0, 0)]⟩] }

/-- An input that already carries a `unique_id` column. -/
def gW9 : GeoDataFrame :=
  { cols := ["use", "unique_id"],
    rows := [⟨[("use", Value.str "A"), ("unique_id", Value.int 7)], [(0, 0)]⟩] }

/-- A matrix whose only scores are the out-of-range value 7. -/
def mW5 : Matrix := [("A", "B", some 7), ("B", "A", some 7)]

/-- A matrix holding a non-integral score 5/2. -/
def mW8 : Matrix := [("A", "B", some (5 / 2)), ("B", "A", some (5 / 2))]

/-- A matrix whose cells for (A,B) and (B,A) are present but blank. -/
def mW10 : Matrix := [("A", "B", none), ("B", "A", none)]

/-- A stand-in for the UTM reprojection: shift every point east by one. -/
def shiftX : Geom → Geom := fun g => g.map (fun p => (p.1 + 1, p.2))

/-- A directional matrix mapping (A,B) to `z1` and (B,A) to `z2`. -/
def mC3 (z1 z2 : ℤ) : Matrix := [("A", "B", some (z1 : ℚ)), ("B", "A", some (z2 : ℚ))]

/-- The integer `compat_score` column of a scored table, read back from
its rows. -/
def outScores (gdf : GeoDataFrame) : List ℤ :=
  gdf.rows.filterMap (fun r =>
    match attrLookup r.attrs "compat_score" with
    | some (Value.int z) => some z
    | _ => none)

/-! ### List-indexing helpers -/

theorem zip_getElem? {α β : Type} : ∀ (l1 : List α) (l2 : List β) (i : ℕ),
    (l1.zip l2)[i]? = (l1[i]?).bind (fun a => (l2[i]?).map (fun b => (a, b)))
  | [], _, _ => by simp
  | _ :: _, [], i => by cases i <;> simp
  | _ :: _, _ :: _, 0 => by simp
  | _ :: l1, _ :: l2, (i + 1) => by simpa using zip_getElem? l1 l2 i

theorem addUidRows_getElem? : ∀ (l : List Row) (n i : ℕ),
    (addUidRows l n)[i]? =
      (l[i]?).map (fun r =>
        { r with attrs := r.attrs ++ [("unique_id", Value.int ((n : ℤ) + (i : ℤ)))] })
  | [], _, _ => by simp [addUidRows]
  | r :: rest, n, 0 => by simp [addUidRows]
  | r :: rest, n, (i + 1) => by
      have h := addUidRows_getElem? rest (n + 1) i
      have e : (((n + 1 : ℕ) : ℤ)) + (i : ℤ) = (n : ℤ) + ((i : ℤ) + 1) := by push_cast; ring
      rw [e] at h
      simpa [addUidRows] using h

theorem addUidRows_length : ∀ (l : List Row) (n : ℕ), (addUidRows l n).length = l.length
  | [], _ => rfl
  | _ :: rest, n => by simp [addUidRows, addUidRows_length rest (n + 1)]

theorem prepGdf_cols (rp : Geom → Geom) (c : CRS) (g : GeoDataFrame) :
    (prepGdf rp c g).cols = g.cols := by
  by_cases hc : c = CRS.geographic <;> simp [prepGdf, hc]

theorem prepGdf_rows_getElem? (rp : Geom → Geom) (c : CRS) (g : GeoDataFrame) (i : ℕ) :
    (prepGdf rp c g).rows[i]? =
      (g.rows[i]?).map (fun r =>
        { r with geom := if c = CRS.geographic then rp r.geom else r.geom }) := by
  by_cases hc : c = CRS.geographic
  · simp [prepGdf, hc, List.getElem?_map]
  · simp only [prepGdf, if_neg hc]
    cases g.rows[i]? <;> simp_all

theorem prepGdf_rows_length (rp : Geom → Geom) (c : CRS) (g : GeoDataFrame) :
    (prepGdf rp c g).rows.length = g.rows.length := by
  by_cases hc : c = CRS.geographic <;> simp [prepGdf, hc]

theorem preparedGdf_cols (rp : Geom → Geom) (c : CRS) (g : GeoDataFrame) :
    (preparedGdf rp c g).cols =
      if "unique_id" ∈ g.cols then g.cols else g.cols ++ ["unique_id"] := by
  by_cases hu : "unique_id" ∈ g.cols <;>
    simp [preparedGdf, withUid, prepGdf_cols, hu]

theorem preparedGdf_rows_length (rp : Geom → Geom) (c : CRS) (g : GeoDataFrame) :
    (preparedGdf rp c g).rows.length = g.rows.length := by
  by_cases hu : "unique_id" ∈ g.cols <;>
    simp [preparedGdf, withUid, prepGdf_cols, hu, addUidRows_length, prepGdf_rows_length]

theorem preparedGdf_rows_getElem? (rp : Geom → Geom) (c : CRS) (g : GeoDataFrame) (i : ℕ) :
    (preparedGdf rp c g).rows[i]? =
      (g.rows[i]?).map (fun r =>
        { attrs := r.attrs ++
            (if "unique_id" ∈ g.cols then [] else [("unique_id", Value.int (i : ℤ))]),
          geom := if c = CRS.geographic then rp r.geom else r.geom }) := by
  by_cases hu : "unique_id" ∈ g.cols
  · simp only [preparedGdf, withUid, prepGdf_cols, hu, if_true]
    rw [prepGdf_rows_getElem?]
    cases g.rows[i]? <;> simp
  · simp only [preparedGdf, withUid, prepGdf_cols, hu, if_false]
    rw [addUidRows_getElem?, prepGdf_rows_getElem?]
    cases g.rows[i]? <;> simp

/-! ### Attribute-lookup helpers -/

theorem attrLookup_append_of_none {l1 : List (String × Value)} {k : String}
    (l2 : List (String × Value)) (h : attrLookup l1 k = none) :
    attrLookup (l1 ++ l2) k = attrLookup l2 k := by
  induction l1 with
  | nil => simp
  | cons kv rest ih =>
      by_cases hk : kv.1 = k
      · simp [attrLookup, hk] at h
      · simp only [attrLookup, if_neg hk] at h
        simpa [attrLookup, hk] using ih h

theorem attrLookup_append_of_some {l1 : List (String × Value)} {k : String} {v : Value}
    (l2 : List (String × Value)) (h : attrLookup l1 k = some v) :
    attrLookup (l1 ++ l2) k = some v := by
  induction l1 with
  | nil => simp [attrLookup] at h
  | cons kv rest ih =>
      by_cases hk : kv.1 = k
      · simp only [attrLookup, if_pos hk] at h
        simpa [attrLookup, hk] using h
      · simp only [attrLookup, if_neg hk] at h
        simpa [attrLookup, hk] using ih h

theorem attrLookup_eq_none_of_not_mem {l : List (String × Value)} {k : String}
    (h : k ∉ l.map Prod.fst) : attrLookup l k = none := by
  induction l with
  | nil => rfl
  | cons kv rest ih =>
      simp only [List.map_cons, List.mem_cons] at h
      push_neg at h
      have hk : kv.1 ≠ k := fun e => h.1 e.symm
      simp [attrLookup, hk, ih h.2]

theorem attrLookup_dropUid {k : String} (l : List (String × Value))
    (hk : k ≠ "unique_id") :
    attrLookup (dropUid l) k = attrLookup l k := by
  induction l with
  | nil => rfl
  | cons kv rest ih =>
      by_cases hu : kv.1 = "unique_id"
      · have hne : ("unique_id" : String) ≠ k := fun e => hk e.symm
        simp [dropUid, attrLookup, hu, hne, ih]
      · by_cases hke : kv.1 = k
        · simp [dropUid, attrLookup, hu, hke, hk]
        · simp [dropUid, attrLookup, hu, hke, ih]

theorem attrLookup_scoreRow_compat {r : Row} (z : ℤ)
    (h : attrLookup r.attrs "compat_score" = none) :
    attrLookup (scoreRow r z).attrs "compat_score" = some (Value.int z) := by
  have h1 : attrLookup (dropUid r.attrs) "compat_score" = none := by
    rw [attrLookup_dropUid _ (by decide)]
    exact h
  simp [scoreRow, attrLookup_append_of_none _ h1, attrLookup]

theorem attrLookup_scoreRow_other {r : Row} (z : ℤ) {k : String}
    (hk1 : k ≠ "unique_id") (hk2 : k ≠ "compat_score") :
    attrLookup (scoreRow r z).attrs k = attrLookup r.attrs k := by
  cases e : attrLookup r.attrs k with
  | some v =>
      have h1 : attrLookup (dropUid r.attrs) k = some v := by
        rw [attrLookup_dropUid _ hk1]; exact e
      simp [scoreRow, attrLookup_append_of_some _ h1]
  | none =>
      have h1 : attrLookup (dropUid r.attrs) k = none := by
        rw [attrLookup_dropUid _ hk1]; exact e
      have h2 : ("compat_score" : String) ≠ k := fun e2 => hk2 e2.symm
      simp [scoreRow, attrLookup_append_of_none _ h1, attrLookup, h2]

/-! ### `allInt` (the `astype('Int64')` cast) -/

theorem allInt_eq : ∀ {qs : List ℚ} {zs : List ℤ},
    allInt qs = some zs → qs = zs.map (fun z : ℤ => (z : ℚ))
  | [], zs, h => by
      simp only [allInt, Option.some.injEq] at h
      subst h
      rfl
  | q :: rest, zs, h => by
      by_cases hd : q.den = 1
      · simp only [allInt, if_pos hd, Option.map_eq_some'] at h
        obtain ⟨tail, htail, hz⟩ := h
        subst hz
        rw [List.map_cons, (Rat.den_eq_one_iff q).mp hd, ← allInt_eq htail]
      · simp [allInt, hd] at h

theorem allInt_of_den_one : ∀ {qs : List ℚ},
    (∀ q ∈ qs, q.den = 1) → ∃ zs, allInt qs = some zs
  | [], _ => ⟨[], rfl⟩
  | q :: rest, h => by
      obtain ⟨zs, hzs⟩ := allInt_of_den_one (fun x hx => h x (List.mem_cons_of_mem _ hx))
      exact ⟨q.num :: zs, by simp [allInt, h q (List.mem_cons_self _ _), hzs]⟩

/-! ### `listMinQ` (the NaN-skipping group minimum) -/

theorem listMinQ_ne_nil : ∀ {xs : List ℚ}, xs ≠ [] → ∃ q, listMinQ xs = some q
  | [], h => absurd rfl h
  | x :: rest, _ => by
      cases e : listMinQ rest with
      | none => exact ⟨x, by simp [listMinQ, e]⟩
      | some m => exact ⟨min x m, by simp [listMinQ, e]⟩

theorem listMinQ_mem : ∀ {xs : List ℚ} {q : ℚ}, listMinQ xs = some q → q ∈ xs
  | [], _, h => by simp [listMinQ] at h
  | x :: rest, q, h => by
      cases e : listMinQ rest with
      | none => simp [listMinQ, e] at h; simp [h]
      | some m =>
          simp [listMinQ, e] at h
          rcases min_cases x m with ⟨hmin, _⟩ | ⟨hmin, _⟩
          · rw [hmin] at h; simp [h]
          · rw [hmin] at h
            exact List.mem_cons_of_mem _ (h ▸ listMinQ_mem e)

theorem listMinQ_le {xs : List ℚ} {q : ℚ} (hmin : listMinQ xs = some q) :
    ∀ x ∈ xs, q ≤ x := by
  induction xs generalizing q with
  | nil => simp [listMinQ] at hmin
  | cons x rest ih =>
      intro y hy
      rcases List.mem_cons.mp hy with hy | hy
      · subst hy
        cases e : listMinQ rest with
        | none =>
            simp only [listMinQ, e, Option.some.injEq] at hmin
            exact le_of_eq hmin.symm
        | some m =>
            simp only [listMinQ, e, Option.some.injEq] at hmin
            exact hmin ▸ min_le_left _ _
      · cases e : listMinQ rest with
        | none =>
            exfalso
            cases rest with
            | nil => simp at hy
            | cons a t => cases e2 : listMinQ t <;> simp [listMinQ, e2] at e
        | some m =>
            simp only [listMinQ, e, Option.some.injEq] at hmin
            exact hmin ▸ le_trans (min_le_right x m) (ih e y hy)

/-! ### `fillScore` characterizations -/

theorem fillScore_of_resolved (sp : List ScoredPair) (id : Value)
    (h : resolvedScores sp id ≠ []) :
    ∃ q, listMinQ (resolvedScores sp id) = some q ∧ fillScore sp id = q := by
  obtain ⟨q, hq⟩ := listMinQ_ne_nil h
  have hgrp : ¬ (groupPairs sp id).isEmpty = true := by
    intro he
    apply h
    simp only [resolvedScores, List.isEmpty_iff.mp he, List.filterMap_nil]
  exact ⟨q, hq, by simp [fillScore, finalScore, hgrp, hq]⟩

theorem fillScore_default (sp : List ScoredPair) (id : Value)
    (h : groupPairs sp id = [] ∨ ∀ p ∈ groupPairs sp id, p.score = none) :
    fillScore sp id = 5 := by
  rcases h with h | h
  · simp [fillScore, finalScore, h]
  · by_cases he : (groupPairs sp id).isEmpty = true
    · simp [fillScore, finalScore, he]
    · have hres : resolvedScores sp id = [] := List.filterMap_eq_nil_iff.mpr h
      simp [fillScore, finalScore, he, hres, listMinQ]

/-! ### Run inversion and the per-row score correspondence -/

theorem runAnalysis_ok_inv {rp : Geom → Geom} {c : CRS} {g : GeoDataFrame}
    {m : Matrix} {lu : String} {d : ℚ} {out : RunOutput}
    (h : runAnalysis rp c g m lu d = Except.ok out) :
    lu ∈ g.cols ∧ "compat_score" ∉ (preparedGdf rp c g).cols ∧
      ∃ zs, allInt ((preparedGdf rp c g).rows.map
          (fun r => fillScore (pipeScored rp c g m lu d) (rowId r))) = some zs ∧
        out = mkOutput c (preparedGdf rp c g) lu zs := by
  by_cases h1 : lu ∈ g.cols
  · simp only [runAnalysis, if_pos h1] at h
    by_cases h2 : "compat_score" ∈ (withUid (prepGdf rp c g)).cols
    · simp [h2] at h
    · simp only [if_neg h2, ite_false] at h
      cases e : allInt ((withUid (prepGdf rp c g)).rows.map
          (fun r => fillScore (scoredPairs (withUid (prepGdf rp c g)) m lu d) (rowId r))) with
      | none => rw [e] at h; cases h
      | some zs =>
          rw [e] at h
          simp only [Except.ok.injEq] at h
          exact ⟨h1, h2, zs, e, h.symm⟩
  · simp [runAnalysis, h1] at h

theorem outScoreAt_run {rp : Geom → Geom} {c : CRS} {g : GeoDataFrame}
    {m : Matrix} {lu : String} {d : ℚ} {out : RunOutput}
    (h : runAnalysis rp c g m lu d = Except.ok out) (hwf : WF g)
    {i : ℕ} (hi : i < g.rows.length) :
    ∃ z : ℤ, outScoreAt out i = some (Value.int z) ∧
      (z : ℚ) = fillScore (pipeScored rp c g m lu d) (rowIdAt rp c g i) := by
  obtain ⟨hlu, hcs, zs, hall, hout⟩ := runAnalysis_ok_inv h
  have hlen : (preparedGdf rp c g).rows.length = g.rows.length :=
    preparedGdf_rows_length rp c g
  have hqs := allInt_eq hall
  have hzlen : zs.length = g.rows.length := by
    have := congrArg List.length hqs
    simp only [List.length_map] at this
    omega
  cases hr : g.rows[i]? with
  | none =>
      rw [List.getElem?_eq_none_iff] at hr
      omega
  | some r0 =>
  cases hz : zs[i]? with
  | none =>
      rw [List.getElem?_eq_none_iff] at hz
      omega
  | some z =>
  have hPi := preparedGdf_rows_getElem? rp c g i
  rw [hr] at hPi
  simp only [Option.map_some'] at hPi
  have hcompat0 : attrLookup r0.attrs "compat_score" = none := by
    apply attrLookup_eq_none_of_not_mem
    have hmem : r0 ∈ g.rows := by
      have := List.getElem?_eq_some.mp hr
      obtain ⟨hb, hget⟩ := this
      exact hget ▸ List.getElem_mem hb
    rw [hwf r0 hmem]
    intro hcg
    apply hcs
    rw [preparedGdf_cols]
    by_cases hu : "unique_id" ∈ g.cols
    · simpa [hu] using hcg
    · simp [hu, List.mem_append, hcg]
  have hcompatP : attrLookup (r0.attrs ++
      (if "unique_id" ∈ g.cols then [] else [("unique_id", Value.int (i : ℤ))]))
      "compat_score" = none := by
    rw [attrLookup_append_of_none _ hcompat0]
    by_cases hu : "unique_id" ∈ g.cols <;> simp [hu, attrLookup]
  have hrow : out.scored.rows[i]? = some (scoreRow
      { attrs := r0.attrs ++
          (if "unique_id" ∈ g.cols then [] else [("unique_id", Value.int (i : ℤ))]),
        geom := if c = CRS.geographic then rp r0.geom else r0.geom } z) := by
    rw [hout]
    show (((preparedGdf rp c g).rows.zip zs).map (fun p => scoreRow p.1 p.2))[i]? = _
    rw [List.getElem?_map, zip_getElem?, hPi, hz]
    rfl
  have hfun : (fillScore (pipeScored rp c g m lu d) (rowId
      { attrs := r0.attrs ++
          (if "unique_id" ∈ g.cols then [] else [("unique_id", Value.int (i : ℤ))]),
        geom := if c = CRS.geographic then rp r0.geom else r0.geom })) = (z : ℚ) := by
    have h1 := congrArg (fun l => l[i]?) hqs
    simp only [List.getElem?_map, hPi, hz, Option.map_some'] at h1
    exact Option.some.injEq _ _ ▸ h1
  refine ⟨z, ?_, ?_⟩
  · rw [outScoreAt, hrow, Option.some_bind]
    exact attrLookup_scoreRow_compat z hcompatP
  · rw [rowIdAt, hPi]
    simp only [Option.map_some', Option.getD_some]
    exact hfun.symm

/-! ### Geometric symmetry of the buffered-intersection test -/

theorem sqDist_comm (p q : ℚ × ℚ) : sqDist p q = sqDist q p := by
  simp only [sqDist]
  ring

theorem withinDist_comm (g1 g2 : Geom) (d : ℚ) :
    withinDist g1 g2 d = withinDist g2 g1 d := by
  have key : ∀ (a b : Geom), withinDist a b d = true → withinDist b a d = true := by
    intro a b hab
    simp only [withinDist, List.any_eq_true, decide_eq_true_eq] at hab ⊢
    obtain ⟨p, hp, q, hq, hle⟩ := hab
    exact ⟨q, hq, p, hp, by rwa [sqDist_comm]⟩
  cases e1 : withinDist g1 g2 d with
  | true => exact (key _ _ e1).symm
  | false =>
      cases e2 : withinDist g2 g1 d with
      | false => rfl
      | true =>
          rw [key _ _ e2] at e1
          cases e1

theorem mem_adjacentPairs_iff (g : GeoDataFrame) (lu : String) (d : ℚ) (x y : Value) :
    (∃ p ∈ adjacentPairs g lu d, p.leftId = x ∧ p.rightId = y) ↔
      ∃ rl ∈ g.rows, ∃ rr ∈ g.rows,
        withinDist rl.geom rr.geom d = true ∧ rowId rl ≠ rowId rr ∧
        rowId rl = x ∧ rowId rr = y := by
  simp only [adjacentPairs, List.mem_flatMap, List.mem_filterMap]
  constructor
  · rintro ⟨p, ⟨rl, hrl, rr, hrr, hif⟩, hx, hy⟩
    by_cases hcond : withinDist rl.geom rr.geom d = true ∧ rowId rl ≠ rowId rr
    · rw [if_pos hcond] at hif
      cases hif
      exact ⟨rl, hrl, rr, hrr, hcond.1, hcond.2, hx, hy⟩
    · rw [if_neg hcond] at hif
      cases hif
  · rintro ⟨rl, hrl, rr, hrr, hw, hne, hx, hy⟩
    refine ⟨⟨x, rowLu lu rl, y⟩, ⟨rl, hrl, rr, hrr, ?_⟩, rfl, rfl⟩
    rw [if_pos ⟨hw, hne⟩, hx, hy]

/-! ### The merge-based lookup resolves exactly the ordered class pair -/

theorem mem_matrixLong {m : Matrix} {e : String × String × ℚ}
    (he : e ∈ matrixLong m) : (e.1, e.2.1, some e.2.2) ∈ m := by
  simp only [matrixLong, List.mem_filterMap] at he
  obtain ⟨cell, hcell, hmap⟩ := he
  cases hc : cell.2.2 with
  | none => rw [hc] at hmap; cases hmap
  | some q =>
      rw [hc] at hmap
      simp only [Option.map_some', Option.some.injEq] at hmap
      have : cell = (e.1, e.2.1, some e.2.2) := by
        rw [← hmap, ← hc]
      exact this ▸ hcell

theorem matrixLong_filter (m : Matrix) :
    matrixLong (m.filter (fun e => e.2.2.isSome)) = matrixLong m := by
  induction m with
  | nil => rfl
  | cons e rest ih =>
      cases he : e.2.2 with
      | none => simp [matrixLong, List.filter_cons, he, ih, List.filterMap_cons] at ih ⊢; exact ih
      | some q => simp [matrixLong, List.filter_cons, he, List.filterMap_cons] at ih ⊢; exact ih

theorem scoredPairs_spec (g : GeoDataFrame) (m : Matrix) (lu : String) (d : ℚ) :
    ∀ p ∈ scoredPairs g m lu d,
      (∃ p2 ∈ withRightUses g.rows lu (adjacentPairs g lu d),
        p2.leftId = p.leftId ∧ p2.leftLu = p.leftLu ∧
        p2.rightId = p.rightId ∧ p2.rightLu = p.rightLu) ∧
      ((p.score = none ∧ ∀ e ∈ matrixLong m,
          ¬(p.leftLu = some (Value.str e.1) ∧ p.rightLu = some (Value.str e.2.1))) ∨
        (∃ e ∈ matrixLong m, p.leftLu = some (Value.str e.1) ∧
          p.rightLu = some (Value.str e.2.1) ∧ p.score = some e.2.2)) := by
  intro p hp
  simp only [scoredPairs, List.mem_flatMap] at hp
  obtain ⟨p2, hp2, hpl⟩ := hp
  simp only [scoreLookup] at hpl
  by_cases he : (List.filter (fun e =>
      decide (p2.leftLu = some (Value.str e.1) ∧ p2.rightLu = some (Value.str e.2.1)))
      (matrixLong m)).isEmpty = true
  · rw [if_pos he] at hpl
    simp only [List.mem_singleton] at hpl
    subst hpl
    refine ⟨⟨p2, hp2, rfl, rfl, rfl, rfl⟩, Or.inl ⟨rfl, ?_⟩⟩
    intro e he2 hmatch
    rw [List.isEmpty_iff] at he
    have hmem : e ∈ List.filter (fun e =>
        decide (p2.leftLu = some (Value.str e.1) ∧ p2.rightLu = some (Value.str e.2.1)))
        (matrixLong m) :=
      List.mem_filter.mpr ⟨he2, decide_eq_true hmatch⟩
    rw [he] at hmem
    cases hmem
  · rw [if_neg he] at hpl
    simp only [List.mem_map] at hpl
    obtain ⟨e, hef, hpe⟩ := hpl
    subst hpe
    have hfe := List.mem_filter.mp hef
    have hcond := of_decide_eq_true hfe.2
    exact ⟨⟨p2, hp2, rfl, rfl, rfl, rfl⟩,
      Or.inr ⟨e, hfe.1, hcond.1, hcond.2, rfl⟩⟩

/-! ### Further structural helpers -/

theorem dropUid_append (l1 l2 : List (String × Value)) :
    dropUid (l1 ++ l2) = dropUid l1 ++ dropUid l2 := by
  induction l1 with
  | nil => rfl
  | cons kv rest ih =>
      by_cases hu : kv.1 = "unique_id" <;> simp [dropUid, hu, ih]

theorem zip_scoreRow_geom : ∀ (l : List Row) (zs : List ℤ), l.length = zs.length →
    (((l.zip zs).map (fun p => scoreRow p.1 p.2)).map (fun r => r.geom)) =
      l.map (fun r => r.geom)
  | [], [], _ => rfl
  | [], _ :: _, h => by simp at h
  | _ :: _, [], h => by simp at h
  | r :: l, z :: zs, h => by
      simp only [List.zip_cons_cons, List.map_cons, scoreRow]
      exact congrArg _ (zip_scoreRow_geom l zs (by simpa using h))

theorem addUidRows_map_geom : ∀ (l : List Row) (n : ℕ),
    (addUidRows l n).map (fun r => r.geom) = l.map (fun r => r.geom)
  | [], _ => rfl
  | r :: rest, n => by
      simp [addUidRows, addUidRows_map_geom rest (n + 1)]

theorem preparedGdf_map_geom (rp : Geom → Geom) (c : CRS) (g : GeoDataFrame) :
    (preparedGdf rp c g).rows.map (fun r => r.geom) =
      if c = CRS.geographic then g.rows.map (fun r => rp r.geom)
      else g.rows.map (fun r => r.geom) := by
  by_cases hu : "unique_id" ∈ g.cols <;>
    by_cases hc : c = CRS.geographic <;>
      simp [preparedGdf, withUid, prepGdf, prepGdf_cols, hu, hc,
        addUidRows_map_geom, List.map_map, Function.comp]

theorem preparedGdf_compat_not_mem {g : GeoDataFrame} (rp : Geom → Geom) (c : CRS)
    (hcs : "compat_score" ∉ g.cols) :
    "compat_score" ∉ (preparedGdf rp c g).cols := by
  rw [preparedGdf_cols]
  by_cases hu : "unique_id" ∈ g.cols
  · simpa [hu] using hcs
  · simp [hu, hcs]

theorem fillScore_of_resolved_nil {sp : List ScoredPair} {id : Value}
    (h : resolvedScores sp id = []) : fillScore sp id = 5 := by
  by_cases he : (groupPairs sp id).isEmpty = true
  · simp [fillScore, finalScore, he]
  · simp [fillScore, finalScore, he, h, listMinQ]

theorem fillScore_den_one {g2 : GeoDataFrame} {m : Matrix} {lu : String} {d : ℚ}
    (hint : ∀ e ∈ m, (e.2.2.map Rat.den).getD 1 = 1) (id : Value) :
    (fillScore (scoredPairs g2 m lu d) id).den = 1 := by
  by_cases hres : resolvedScores (scoredPairs g2 m lu d) id = []
  · rw [fillScore_of_resolved_nil hres]
    rfl
  · obtain ⟨q, hq, hfq⟩ := fillScore_of_resolved _ _ hres
    rw [hfq]
    have hmem := listMinQ_mem hq
    obtain ⟨p, hps, hpq⟩ : ∃ p ∈ scoredPairs g2 m lu d, p.score = some q := by
      obtain ⟨p, hp, hsc⟩ := List.mem_filterMap.mp hmem
      exact ⟨p, (List.mem_filter.mp hp).1, hsc⟩
    obtain ⟨_, hdisj⟩ := scoredPairs_spec g2 m lu d p hps
    rcases hdisj with ⟨hn, _⟩ | ⟨e, he, _, _, hs⟩
    · rw [hn] at hpq
      cases hpq
    · rw [hs] at hpq
      have heq : e.2.2 = q := by injection hpq
      have hcell := mem_matrixLong he
      have hd := hint _ hcell
      simp only [Option.map_some', Option.getD_some] at hd
      rw [← heq]
      exact hd

/-! ### Report-shape helpers -/

theorem overallSummary_length (zs : List ℤ) : (overallSummary zs).length = 5 := by
  simp [overallSummary]

theorem overallSummary_map_fst (zs : List ℤ) :
    (overallSummary zs).map (fun r => r.1) = [1, 2, 3, 4, 5] := by
  have h5 : List.range 5 = [0, 1, 2, 3, 4] := rfl
  simp only [overallSummary, h5, List.map_cons, List.map_nil]
  decide

theorem overallSummary_count (zs : List ℤ) :
    ∀ r ∈ overallSummary zs, r.2.1 = zs.count r.1 := by
  intro r hr
  simp only [overallSummary, List.mem_map] at hr
  obtain ⟨k, _, hk⟩ := hr
  rw [← hk]

theorem detailedCols_sorted (zs : List ℤ) :
    List.Sorted (fun a b : ℤ => a ≤ b) (detailedCols zs) :=
  List.sorted_insertionSort _ _

theorem detailedCols_nodup (zs : List ℤ) : (detailedCols zs).Nodup :=
  ((List.perm_insertionSort _ _).nodup_iff).mpr (List.nodup_dedup _)

theorem mem_detailedCols (zs : List ℤ) (s : ℤ) :
    s ∈ detailedCols zs ↔ s ∈ zs ∨ s ∈ ([1, 2, 3, 4, 5] : List ℤ) := by
  rw [detailedCols, List.mem_insertionSort, List.mem_dedup, List.mem_append]

theorem detailedCols_length_five (zs : List ℤ)
    (hall : ∀ s ∈ detailedCols zs, 1 ≤ s ∧ s ≤ 5) : (detailedCols zs).length = 5 := by
  have h15 : ([1, 2, 3, 4, 5] : List ℤ).Nodup := by decide
  have hperm : (detailedCols zs).Perm [1, 2, 3, 4, 5] := by
    rw [List.perm_ext_iff_of_nodup (detailedCols_nodup zs) h15]
    intro a
    constructor
    · intro ha
      have hb := hall a ha
      have : a = 1 ∨ a = 2 ∨ a = 3 ∨ a = 4 ∨ a = 5 := by omega
      simpa using this
    · intro ha
      exact (mem_detailedCols zs a).mpr (Or.inr ha)
  simpa using hperm.length_eq

theorem detailedTable_rows (pcs : List (Value × ℤ)) :
    ∀ t ∈ detailedTable pcs,
      t.2.1.length = (detailedCols (pcs.map (fun p => p.2))).length ∧
      t.2.2 = t.2.1.sum := by
  intro t ht
  simp only [detailedTable, List.mem_map] at ht
  obtain ⟨c, _, hc⟩ := ht
  rw [← hc]
  exact ⟨List.length_map _ _, rfl⟩

theorem zip_map_snd {α β γ : Type} (f : α → γ) : ∀ (l : List α) (zs : List β),
    l.length = zs.length →
    (((l.zip zs).map (fun p => (f p.1, p.2))).map (fun q => q.2)) = zs
  | [], [], _ => rfl
  | [], _ :: _, h => by simp at h
  | _ :: _, [], h => by simp at h
  | a :: l, b :: zs, h => by
      simp only [List.zip_cons_cons, List.map_cons]
      exact congrArg _ (zip_map_snd f l zs (by simpa using h))

theorem outScores_zip : ∀ (l : List Row) (zs : List ℤ), l.length = zs.length →
    (∀ r ∈ l, attrLookup r.attrs "compat_score" = none) →
    (((l.zip zs).map (fun p => scoreRow p.1 p.2)).filterMap (fun r =>
      match attrLookup r.attrs "compat_score" with
      | some (Value.int z) => some z
      | _ => none)) = zs
  | [], [], _, _ => rfl
  | [], _ :: _, h, _ => by simp at h
  | _ :: _, [], h, _ => by simp at h
  | r :: l, z :: zs, h, hk => by
      have h1 : attrLookup (scoreRow r z).attrs "compat_score" = some (Value.int z) :=
        attrLookup_scoreRow_compat z (hk r (List.mem_cons_self _ _))
      simp only [List.zip_cons_cons, List.map_cons, List.filterMap_cons, h1]
      rw [outScores_zip l zs (by simpa using h)
        (fun r2 hr2 => hk r2 (List.mem_cons_of_mem _ hr2))]

theorem addUidRows_mem : ∀ {l : List Row} {n : ℕ} {r : Row}, r ∈ addUidRows l n →
    ∃ r0 ∈ l, ∃ k : ℤ, r.attrs = r0.attrs ++ [("unique_id", Value.int k)]
  | [], _, _, h => by cases h
  | r0 :: rest, n, r, h => by
      rcases List.mem_cons.mp h with he | ht
      · exact ⟨r0, List.mem_cons_self _ _, (n : ℤ), by rw [he]⟩
      · obtain ⟨r1, hr1, k, hk⟩ := addUidRows_mem ht
        exact ⟨r1, List.mem_cons_of_mem _ hr1, k, hk⟩

theorem preparedGdf_compat_none {g : GeoDataFrame} (rp : Geom → Geom) (c : CRS)
    (hwf : WF g) (hcs : "compat_score" ∉ g.cols) :
    ∀ r ∈ (preparedGdf rp c g).rows, attrLookup r.attrs "compat_score" = none := by
  have hbase : ∀ r0 ∈ (prepGdf rp c g).rows, attrLookup r0.attrs "compat_score" = none := by
    intro r0 hr0
    have : ∃ r1 ∈ g.rows, r0.attrs = r1.attrs := by
      by_cases hc2 : c = CRS.geographic
      · simp only [prepGdf, if_pos hc2, List.mem_map] at hr0
        obtain ⟨r1, hr1, hre⟩ := hr0
        exact ⟨r1, hr1, by rw [← hre]⟩
      · simp only [prepGdf, if_neg hc2] at hr0
        exact ⟨r0, hr0, rfl⟩
    obtain ⟨r1, hr1, hattr⟩ := this
    rw [hattr]
    apply attrLookup_eq_none_of_not_mem
    rw [hwf r1 hr1]
    exact hcs
  intro r hr
  by_cases hu : "unique_id" ∈ g.cols
  · have : (preparedGdf rp c g).rows = (prepGdf rp c g).rows := by
      simp [preparedGdf, withUid, prepGdf_cols, hu]
    rw [this] at hr
    exact hbase r hr
  · have : (preparedGdf rp c g).rows = addUidRows (prepGdf rp c g).rows 0 := by
      simp [preparedGdf, withUid, prepGdf_cols, hu]
    rw [this] at hr
    obtain ⟨r0, hr0, k, hk⟩ := addUidRows_mem hr
    rw [hk, attrLookup_append_of_none _ (hbase r0 hr0)]
    simp [attrLookup]

/-! ### Claim theorems -/

/-- C1: for every parcel that is the left member of at least one
adjacency pair with a resolved matrix score, the `compat_score` written
to the scored output is the minimum of the resolved scores over all
adjacency pairs in which it is the left parcel; unresolved pairs are
excluded from this minimum and do not affect it. -/
theorem C1_worst_case_minimum {rp : Geom → Geom} {c : CRS} {g : GeoDataFrame}
    {m : Matrix} {lu : String} {d : ℚ} {out : RunOutput}
    (h : runAnalysis rp c g m lu d = Except.ok out) (hwf : WF g)
    {i : ℕ} (hi : i < g.rows.length)
    (hres : resolvedScores (pipeScored rp c g m lu d) (rowIdAt rp c g i) ≠ []) :
    ∃ z : ℤ, outScoreAt out i = some (Value.int z) ∧
      (z : ℚ) ∈ resolvedScores (pipeScored rp c g m lu d) (rowIdAt rp c g i) ∧
      ∀ x ∈ resolvedScores (pipeScored rp c g m lu d) (rowIdAt rp c g i), (z : ℚ) ≤ x := by
  obtain ⟨z, hsc, hfz⟩ := outScoreAt_run h hwf hi
  obtain ⟨q, hq, hfq⟩ := fillScore_of_resolved _ _ hres
  refine ⟨z, hsc, ?_, ?_⟩
  · rw [hfz, hfq]
    exact listMinQ_mem hq
  · intro x hx
    rw [hfz, hfq]
    exact listMinQ_le hq x hx

/-- C1 witness: in the concrete run `gW1`/`mW1`, the parcel of class R
has resolved neighbor scores {5, 3, 4} and its output score is their
minimum. -/
theorem C1_witness :
    ∃ z : ℤ, outScoreAt (okOr (runAnalysis id CRS.projected gW1 mW1 "use" 1) emptyOutput) 0 =
        some (Value.int z) ∧
      (z : ℚ) ∈ resolvedScores (pipeScored id CRS.projected gW1 mW1 "use" 1)
        (rowIdAt id CRS.projected gW1 0) ∧
      ∀ x ∈ resolvedScores (pipeScored id CRS.projected gW1 mW1 "use" 1)
        (rowIdAt id CRS.projected gW1 0), (z : ℚ) ≤ x :=
  @C1_worst_case_minimum id CRS.projected gW1 mW1 "use" 1
    (okOr (runAnalysis id CRS.projected gW1 mW1 "use" 1) emptyOutput)
    (by with_unfolding_all rfl) (by decide) 0 (by decide)
    (of_decide_eq_true (by with_unfolding_all rfl))

/-- C2: a parcel with zero adjacency pairs as left parcel, or all of
whose adjacency pairs are unresolved, receives exactly the default
`compat_score` 5 in the scored output. -/
theorem C2_default_five {rp : Geom → Geom} {c : CRS} {g : GeoDataFrame}
    {m : Matrix} {lu : String} {d : ℚ} {out : RunOutput}
    (h : runAnalysis rp c g m lu d = Except.ok out) (hwf : WF g)
    {i : ℕ} (hi : i < g.rows.length)
    (hdef : groupPairs (pipeScored rp c g m lu d) (rowIdAt rp c g i) = [] ∨
      ∀ p ∈ groupPairs (pipeScored rp c g m lu d) (rowIdAt rp c g i), p.score = none) :
    outScoreAt out i = some (Value.int 5) := by
  obtain ⟨z, hsc, hfz⟩ := outScoreAt_run h hwf hi
  have h5 : fillScore (pipeScored rp c g m lu d) (rowIdAt rp c g i) = 5 :=
    fillScore_default _ _ hdef
  have hq : (z : ℚ) = 5 := hfz.trans h5
  have hz5 : z = 5 := by exact_mod_cast hq
  rwa [hz5] at hsc

/-- C2 witness: with an empty matrix, both co-located parcels of `gW2`
have only unresolved pairs, and parcel 0 receives the default score 5. -/
theorem C2_witness :
    outScoreAt (okOr (runAnalysis id CRS.projected gW2 [] "use" 1) emptyOutput) 0 =
      some (Value.int 5) :=
  @C2_default_five id CRS.projected gW2 [] "use" 1
    (okOr (runAnalysis id CRS.projected gW2 [] "use" 1) emptyOutput)
    (by with_unfolding_all rfl) (by decide) 0 (by decide)
    (of_decide_eq_true (by with_unfolding_all rfl))

/-- C4: the directed adjacency relation produced by the spatial join is
symmetric — the pair (a, b) is present iff the pair (b, a) is present,
even though the join tests the left parcel's original geometry against
the right parcel's buffered region. -/
theorem C4_adjacency_symmetric (g : GeoDataFrame) (lu : String) (d : ℚ) (a b : Value) :
    (∃ p ∈ adjacentPairs g lu d, p.leftId = a ∧ p.rightId = b) ↔
      (∃ p ∈ adjacentPairs g lu d, p.leftId = b ∧ p.rightId = a) := by
  rw [mem_adjacentPairs_iff, mem_adjacentPairs_iff]
  constructor
  · rintro ⟨rl, hrl, rr, hrr, hw, hne, hx, hy⟩
    exact ⟨rr, hrr, rl, hrl, by rwa [withinDist_comm], fun e => hne e.symm, hy, hx⟩
  · rintro ⟨rl, hrl, rr, hrr, hw, hne, hx, hy⟩
    exact ⟨rr, hrr, rl, hrl, by rwa [withinDist_comm], fun e => hne e.symm, hy, hx⟩

/-- C3: the compatibility lookup is directional. Every scored pair's
score is resolved from a matrix entry whose ordered key pair equals
exactly (class_left, class_right) — never the reversed pair — and, in
particular, with a matrix mapping (A,B) to z1 and (B,A) to z2 with
z1 ≠ z2, the class-A parcel whose only neighbor has class B receives
compat_score z1 while the class-B parcel receives z2. -/
theorem C3_directional_lookup (z1 z2 : ℤ) (hz : z1 ≠ z2) :
    (∀ (g : GeoDataFrame) (m : Matrix) (lu : String) (d : ℚ),
      ∀ p ∈ scoredPairs g m lu d,
        (p.score = none ∧ ∀ e ∈ matrixLong m,
          ¬(p.leftLu = some (Value.str e.1) ∧ p.rightLu = some (Value.str e.2.1))) ∨
        (∃ e ∈ matrixLong m, p.leftLu = some (Value.str e.1) ∧
          p.rightLu = some (Value.str e.2.1) ∧ p.score = some e.2.2)) ∧
    ((runAnalysis id CRS.projected gW2 (mC3 z1 z2) "use" 1).isOk = true ∧
      outScoreAt (okOr (runAnalysis id CRS.projected gW2 (mC3 z1 z2) "use" 1) emptyOutput) 0 =
        some (Value.int z1) ∧
      outScoreAt (okOr (runAnalysis id CRS.projected gW2 (mC3 z1 z2) "use" 1) emptyOutput) 1 =
        some (Value.int z2)) := by
  constructor
  · intro g m lu d p hp
    exact (scoredPairs_spec g m lu d p hp).2
  · have hw : withinDist [((0:ℚ),(0:ℚ))] [((0:ℚ),(0:ℚ))] (1:ℚ) = true := by
      with_unfolding_all rfl
    simp only [Prod.mk_zero_zero] at hw
    simp [runAnalysis, preparedGdf, withUid, prepGdf, addUidRows, scoredPairs,
      adjacentPairs, withRightUses, scoreLookup, matrixLong, groupPairs,
      resolvedScores, finalScore, fillScore, listMinQ, allInt, rowId, rowLu,
      attrLookup, hw, mkOutput, scoreRow, dropUid, outScoreAt, okOr, gW2, mC3,
      Except.isOk, Except.toBool]

/-- C3 witness: the directional matrix mapping (A,B) to 1 and (B,A) to 2
gives the class-A parcel score 1 and the class-B parcel score 2. -/
theorem C3_witness :
    (∀ (g : GeoDataFrame) (m : Matrix) (lu : String) (d : ℚ),
      ∀ p ∈ scoredPairs g m lu d,
        (p.score = none ∧ ∀ e ∈ matrixLong m,
          ¬(p.leftLu = some (Value.str e.1) ∧ p.rightLu = some (Value.str e.2.1))) ∨
        (∃ e ∈ matrixLong m, p.leftLu = some (Value.str e.1) ∧
          p.rightLu = some (Value.str e.2.1) ∧ p.score = some e.2.2)) ∧
    ((runAnalysis id CRS.projected gW2 (mC3 1 2) "use" 1).isOk = true ∧
      outScoreAt (okOr (runAnalysis id CRS.projected gW2 (mC3 1 2) "use" 1) emptyOutput) 0 =
        some (Value.int 1) ∧
      outScoreAt (okOr (runAnalysis id CRS.projected gW2 (mC3 1 2) "use" 1) emptyOutput) 1 =
        some (Value.int 2)) :=
  C3_directional_lookup 1 2 (by decide)

/-- C10: a matrix cell that is present but blank behaves exactly as an
absent pair — deleting all blank cells does not change the run at all —
and a parcel all of whose pairs hit blank cells receives the default
score 5. -/
theorem C10_blank_cells {rp : Geom → Geom} {c : CRS} {g : GeoDataFrame}
    {m : Matrix} {lu : String} {d : ℚ} {out : RunOutput}
    (h : runAnalysis rp c g m lu d = Except.ok out) (hwf : WF g)
    {i : ℕ} (hi : i < g.rows.length)
    (hblank : ∀ p ∈ pipeRPairs rp c g lu d, p.leftId = rowIdAt rp c g i →
      ∀ e ∈ m, (p.leftLu = some (Value.str e.1) ∧ p.rightLu = some (Value.str e.2.1)) →
        e.2.2 = none) :
    runAnalysis rp c g m lu d =
      runAnalysis rp c g (m.filter (fun e => e.2.2.isSome)) lu d ∧
    outScoreAt out i = some (Value.int 5) := by
  constructor
  · have hsp : ∀ g2 : GeoDataFrame,
        scoredPairs g2 (m.filter (fun e => e.2.2.isSome)) lu d = scoredPairs g2 m lu d := by
      intro g2
      simp only [scoredPairs, matrixLong_filter]
    simp only [runAnalysis, hsp]
  · obtain ⟨z, hsc, hfz⟩ := outScoreAt_run h hwf hi
    have hnone : ∀ p ∈ groupPairs (pipeScored rp c g m lu d) (rowIdAt rp c g i),
        p.score = none := by
      intro p hp
      have hmem := List.mem_filter.mp hp
      have hid : p.leftId = rowIdAt rp c g i := of_decide_eq_true hmem.2
      obtain ⟨⟨p2, hp2, he1, he2, _, he4⟩, hdisj⟩ :=
        scoredPairs_spec (preparedGdf rp c g) m lu d p hmem.1
      rcases hdisj with ⟨hn, _⟩ | ⟨e, hemem, hm1, hm2, hs⟩
      · exact hn
      · exfalso
        have hcell := mem_matrixLong hemem
        have := hblank p2 hp2 (he1.trans hid) (e.1, e.2.1, some e.2.2) hcell
          ⟨he2.trans hm1, he4.trans hm2⟩
        cases this
    have h5 : fillScore (pipeScored rp c g m lu d) (rowIdAt rp c g i) = 5 :=
      fillScore_default _ _ (Or.inr hnone)
    have hq : (z : ℚ) = 5 := hfz.trans h5
    have hz5 : z = 5 := by exact_mod_cast hq
    rwa [hz5] at hsc

/-- C10 witness: with the blank-celled matrix `mW10`, the run equals the
run on the matrix with the blank cells removed, and parcel 0 of `gW2`
(all of whose pairs hit blank cells) scores 5. -/
theorem C10_witness :
    runAnalysis id CRS.projected gW2 mW10 "use" 1 =
      runAnalysis id CRS.projected gW2 (mW10.filter (fun e => e.2.2.isSome)) "use" 1 ∧
    outScoreAt (okOr (runAnalysis id CRS.projected gW2 mW10 "use" 1) emptyOutput) 0 =
      some (Value.int 5) :=
  @C10_blank_cells id CRS.projected gW2 mW10 "use" 1
    (okOr (runAnalysis id CRS.projected gW2 mW10 "use" 1) emptyOutput)
    (by with_unfolding_all rfl) (by decide) 0 (by decide)
    (of_decide_eq_true (by with_unfolding_all rfl))

/-- C6 counterexample: a run on an empty parcel collection is not
aborted — it completes with a success result and produces the zero-
filled overall summary, contradicting the claim that the empty
collection is detected as a fatal input-structural error. -/
theorem C6_counterexample :
    (runAnalysis id CRS.projected gEmpty [] "use" 1).isOk = true ∧
      (runAnalysis id CRS.projected gEmpty [] "use" 1).map
        (fun o => o.overall.map (fun r => r.2.1)) = Except.ok [0, 0, 0, 0, 0] :=
  ⟨by with_unfolding_all rfl, by with_unfolding_all rfl⟩

/-- C6 amended: a run on an empty parcel collection is not detected as a
fatal error; the pipeline proceeds through all stages and produces an
empty scored collection, a zero-filled overall summary, and an empty
detailed breakdown. -/
theorem C6_empty_not_fatal (rp : Geom → Geom) (c : CRS) (cols : List String)
    (m : Matrix) (lu : String) (d : ℚ)
    (hlu : lu ∈ cols) (hcs : "compat_score" ∉ cols) :
    ∃ out, runAnalysis rp c { cols := cols, rows := [] } m lu d = Except.ok out ∧
      out.scored.rows = [] ∧
      out.overall.map (fun r => (r.1, r.2.1)) = [(1, 0), (2, 0), (3, 0), (4, 0), (5, 0)] ∧
      out.detailed = [] := by
  have hcompat : "compat_score" ∉ (withUid (prepGdf rp c ⟨cols, []⟩)).cols :=
    preparedGdf_compat_not_mem rp c hcs
  have hrows : (withUid (prepGdf rp c ⟨cols, []⟩)).rows = [] := by
    have hlen := preparedGdf_rows_length rp c ⟨cols, []⟩
    simpa [List.length_eq_zero] using hlen
  refine ⟨mkOutput c (withUid (prepGdf rp c ⟨cols, []⟩)) lu [], ?_, ?_, ?_, ?_⟩
  · simp only [runAnalysis, if_pos hlu, if_neg hcompat, hrows, List.map_nil, allInt]
  · simp [mkOutput, hrows]
  · simp only [mkOutput, overallSummary]
    decide
  · simp [mkOutput, detailedTable, hrows]

/-- C6 witness: the amended behavior at a concrete empty input. -/
theorem C6_witness :
    ∃ out, runAnalysis id CRS.projected { cols := ["use"], rows := [] } [] "use" 1 =
        Except.ok out ∧
      out.scored.rows = [] ∧
      out.overall.map (fun r => (r.1, r.2.1)) = [(1, 0), (2, 0), (3, 0), (4, 0), (5, 0)] ∧
      out.detailed = [] :=
  C6_empty_not_fatal id CRS.projected ["use"] [] "use" 1 (by decide) (by decide)

/-- C7 counterexample: on a geographic-CRS input the core itself
reprojects the parcel geometries (via the estimated-UTM transformation)
instead of proceeding with them as given — the output geometry differs
from the input geometry. -/
theorem C7_counterexample :
    (runAnalysis shiftX CRS.geographic gW7 [] "use" 1).map
        (fun o => o.scored.rows.map (fun r => r.geom)) = Except.ok [[(1, 0)]] ∧
      gW7.rows.map (fun r => r.geom) = [[(0, 0)]] ∧
      ([[((1 : ℚ), (0 : ℚ))]] : List Geom) ≠ [[((0 : ℚ), (0 : ℚ))]] :=
  ⟨by with_unfolding_all rfl, by with_unfolding_all rfl,
    of_decide_eq_true (by with_unfolding_all rfl)⟩

/-- C7 amended: coordinate-space problems are not fatal. An undefined
CRS produces a warning and the geometries pass through unchanged; a
geographic CRS produces a warning and the core itself reprojects every
geometry with the estimated-UTM transformation. -/
theorem C7_crs_not_fatal {rp : Geom → Geom} {c : CRS} {g : GeoDataFrame}
    {m : Matrix} {lu : String} {d : ℚ} {out : RunOutput}
    (h : runAnalysis rp c g m lu d = Except.ok out) :
    (c = CRS.undefined →
      out.warnings = ["Warning: Input CRS is undefined. Results may be unreliable."] ∧
      out.scored.rows.map (fun r => r.geom) = g.rows.map (fun r => r.geom)) ∧
    (c = CRS.geographic →
      out.warnings = ["Warning: CRS is geographic. Re-projecting to estimated UTM zone."] ∧
      out.scored.rows.map (fun r => r.geom) = g.rows.map (fun r => rp r.geom)) := by
  obtain ⟨hlu, hcs, zs, hall, hout⟩ := runAnalysis_ok_inv h
  have hzlen : (preparedGdf rp c g).rows.length = zs.length := by
    have := congrArg List.length (allInt_eq hall)
    simpa using this
  have hgeo : out.scored.rows.map (fun r => r.geom) =
      (preparedGdf rp c g).rows.map (fun r => r.geom) := by
    rw [hout]
    exact zip_scoreRow_geom _ _ hzlen
  have hwarn : out.warnings = crsWarnings c := by
    rw [hout]
    simp [mkOutput]
  constructor
  · intro hc
    subst hc
    refine ⟨by rw [hwarn]; rfl, ?_⟩
    rw [hgeo, preparedGdf_map_geom]
    simp
  · intro hc
    subst hc
    refine ⟨by rw [hwarn]; rfl, ?_⟩
    rw [hgeo, preparedGdf_map_geom]
    simp

/-- C7 witness: the amended behavior at a concrete undefined-CRS run. -/
theorem C7_witness :
    (CRS.undefined = CRS.undefined →
      (okOr (runAnalysis id CRS.undefined gW7 [] "use" 1) emptyOutput).warnings =
        ["Warning: Input CRS is undefined. Results may be unreliable."] ∧
      (okOr (runAnalysis id CRS.undefined gW7 [] "use" 1) emptyOutput).scored.rows.map
        (fun r => r.geom) = gW7.rows.map (fun r => r.geom)) ∧
    (CRS.undefined = CRS.geographic →
      (okOr (runAnalysis id CRS.undefined gW7 [] "use" 1) emptyOutput).warnings =
        ["Warning: CRS is geographic. Re-projecting to estimated UTM zone."] ∧
      (okOr (runAnalysis id CRS.undefined gW7 [] "use" 1) emptyOutput).scored.rows.map
        (fun r => r.geom) = gW7.rows.map (fun r => id r.geom)) :=
  @C7_crs_not_fatal id CRS.undefined gW7 [] "use" 1
    (okOr (runAnalysis id CRS.undefined gW7 [] "use" 1) emptyOutput)
    (by with_unfolding_all rfl)

/-- C8 counterexample: a matrix holding the non-integral score 5/2 makes
the run abort at the integer cast, contradicting the claim that the
stages complete without raising for every matrix. -/
theorem C8_counterexample :
    runAnalysis id CRS.projected gW2 mW8 "use" 1 =
      Except.error "TypeError: cannot safely cast non-equivalent float64 to int64" := by
  with_unfolding_all rfl

/-- C8 amended: for every matrix whose present scores are integral —
including scores outside [1, 5] and blank or absent cells — the scoring,
aggregation, and summary stages complete without raising; only a
non-integral resolved score aborts the run (at the integer cast). -/
theorem C8_integral_matrix_tolerated {rp : Geom → Geom} {c : CRS} {g : GeoDataFrame}
    {m : Matrix} {lu : String} {d : ℚ}
    (hlu : lu ∈ g.cols) (hcs : "compat_score" ∉ g.cols)
    (hint : ∀ e ∈ m, (e.2.2.map Rat.den).getD 1 = 1) :
    ∃ out, runAnalysis rp c g m lu d = Except.ok out := by
  have hcompat : "compat_score" ∉ (withUid (prepGdf rp c g)).cols :=
    preparedGdf_compat_not_mem rp c hcs
  have hden : ∀ q ∈ (withUid (prepGdf rp c g)).rows.map
      (fun r => fillScore (scoredPairs (withUid (prepGdf rp c g)) m lu d) (rowId r)),
      q.den = 1 := by
    intro q hq
    rw [List.mem_map] at hq
    obtain ⟨r, _, hqe⟩ := hq
    rw [← hqe]
    exact fillScore_den_one hint (rowId r)
  obtain ⟨zs, hzs⟩ := allInt_of_den_one hden
  refine ⟨mkOutput c (withUid (prepGdf rp c g)) lu zs, ?_⟩
  simp only [runAnalysis, if_pos hlu, if_neg hcompat, hzs]

/-- C8 witness: the amended behavior at a concrete run whose only matrix
scores are the out-of-range integral value 7. -/
theorem C8_witness :
    ∃ out, runAnalysis id CRS.projected gW2 mW5 "use" 1 = Except.ok out :=
  @C8_integral_matrix_tolerated id CRS.projected gW2 mW5 "use" 1
    (by decide) (by decide) (of_decide_eq_true (by with_unfolding_all rfl))

/-- C9 counterexample: an input that already carries a `unique_id`
column loses it — the scored output's columns are only the land-use
column plus `compat_score`, contradicting the claim that no input
attribute is removed. -/
theorem C9_counterexample :
    (runAnalysis id CRS.projected gW9 [] "use" 1).map (fun o => o.scored.cols) =
      Except.ok ["use", "compat_score"] ∧
    "unique_id" ∈ gW9.cols :=
  ⟨by with_unfolding_all rfl, by decide⟩

/-- C9 amended: for runs whose CRS is not geographic, the scored output
preserves every original attribute and the geometry of each parcel and
appends the integer `compat_score` field — except that a `unique_id`
column (pre-existing or synthesized) is consumed as the id column and
dropped from the output. -/
theorem C9_attrs_preserved {rp : Geom → Geom} {c : CRS} {g : GeoDataFrame}
    {m : Matrix} {lu : String} {d : ℚ} {out : RunOutput}
    (h : runAnalysis rp c g m lu d = Except.ok out) (hc : c ≠ CRS.geographic) :
    out.scored.cols = g.cols.filter (fun s => s ≠ "unique_id") ++ ["compat_score"] ∧
    out.scored.rows.length = g.rows.length ∧
    ∀ i, i < g.rows.length → ∃ z : ℤ,
      (out.scored.rows[i]?.map (fun r => r.geom)) = (g.rows[i]?.map (fun r => r.geom)) ∧
      (out.scored.rows[i]?.map (fun r => r.attrs)) =
        (g.rows[i]?.map (fun r => dropUid r.attrs ++ [("compat_score", Value.int z)])) := by
  obtain ⟨hlu, hcs, zs, hall, hout⟩ := runAnalysis_ok_inv h
  have hplen : (preparedGdf rp c g).rows.length = g.rows.length :=
    preparedGdf_rows_length rp c g
  have hzlen : zs.length = g.rows.length := by
    have := congrArg List.length (allInt_eq hall)
    simp only [List.length_map] at this
    omega
  refine ⟨?_, ?_, ?_⟩
  · rw [hout]
    show (preparedGdf rp c g).cols.filter (fun s => s ≠ "unique_id") ++ ["compat_score"] = _
    rw [preparedGdf_cols]
    by_cases hu : "unique_id" ∈ g.cols
    · simp [hu]
    · simp [hu, List.filter_append]
  · rw [hout]
    show (((preparedGdf rp c g).rows.zip zs).map (fun p => scoreRow p.1 p.2)).length = _
    simp [List.length_zip, hplen, hzlen]
  · intro i hi
    cases hr : g.rows[i]? with
    | none =>
        rw [List.getElem?_eq_none_iff] at hr
        omega
    | some r0 =>
    cases hz : zs[i]? with
    | none =>
        rw [List.getElem?_eq_none_iff] at hz
        omega
    | some z =>
    have hPi := preparedGdf_rows_getElem? rp c g i
    rw [hr] at hPi
    simp only [Option.map_some'] at hPi
    have hrow : out.scored.rows[i]? = some (scoreRow
        { attrs := r0.attrs ++
            (if "unique_id" ∈ g.cols then [] else [("unique_id", Value.int (i : ℤ))]),
          geom := if c = CRS.geographic then rp r0.geom else r0.geom } z) := by
      rw [hout]
      show (((preparedGdf rp c g).rows.zip zs).map (fun p => scoreRow p.1 p.2))[i]? = _
      rw [List.getElem?_map, zip_getElem?, hPi, hz]
      rfl
    refine ⟨z, ?_, ?_⟩
    · rw [hrow]
      simp [scoreRow, if_neg hc]
    · rw [hrow]
      simp only [Option.map_some', Option.some.injEq, scoreRow, dropUid_append]
      by_cases hu : "unique_id" ∈ g.cols <;> simp [hu, dropUid]

/-- C9 witness: the amended behavior at the concrete input `gW9`, which
carries a pre-existing `unique_id` column. -/
theorem C9_witness :
    (okOr (runAnalysis id CRS.projected gW9 [] "use" 1) emptyOutput).scored.cols =
      gW9.cols.filter (fun s => s ≠ "unique_id") ++ ["compat_score"] ∧
    (okOr (runAnalysis id CRS.projected gW9 [] "use" 1) emptyOutput).scored.rows.length =
      gW9.rows.length ∧
    ∀ i, i < gW9.rows.length → ∃ z : ℤ,
      ((okOr (runAnalysis id CRS.projected gW9 [] "use" 1) emptyOutput).scored.rows[i]?.map
        (fun r => r.geom)) = (gW9.rows[i]?.map (fun r => r.geom)) ∧
      ((okOr (runAnalysis id CRS.projected gW9 [] "use" 1) emptyOutput).scored.rows[i]?.map
        (fun r => r.attrs)) =
        (gW9.rows[i]?.map (fun r => dropUid r.attrs ++ [("compat_score", Value.int z)])) :=
  @C9_attrs_preserved id CRS.projected gW9 [] "use" 1
    (okOr (runAnalysis id CRS.projected gW9 [] "use" 1) emptyOutput)
    (by with_unfolding_all rfl) (by decide)

/-- C5 counterexample: with a matrix scoring the adjacent class pair 7,
the detailed breakdown has six score columns, not five — the out-of-range
score column is kept alongside the zero-filled 1..5. -/
theorem C5_counterexample :
    (runAnalysis id CRS.projected gW2 mW5 "use" 1).map (fun o => o.detailedCols.length) =
      Except.ok 6 ∧ (6 : ℕ) ≠ 5 :=
  ⟨by with_unfolding_all rfl, by decide⟩

/-- C5 amended: the overall summary always has exactly 5 rows, one per
score 1..5 in ascending order, each row counting the parcels at that
score (zero-filled); the detailed breakdown's score columns are the
ascending, duplicate-free union of the observed scores with 1..5 —
exactly 5 columns when every observed score lies in [1, 5] — and every
class row carries one count per score column plus a total equal to the
row sum. -/
theorem C5_report_shapes {rp : Geom → Geom} {c : CRS} {g : GeoDataFrame}
    {m : Matrix} {lu : String} {d : ℚ} {out : RunOutput}
    (h : runAnalysis rp c g m lu d = Except.ok out) (hwf : WF g) :
    out.overall.length = 5 ∧
    out.overall.map (fun r => r.1) = [1, 2, 3, 4, 5] ∧
    (∀ r ∈ out.overall, r.2.1 = (outScores out.scored).count r.1) ∧
    List.Sorted (fun a b : ℤ => a ≤ b) out.detailedCols ∧
    out.detailedCols.Nodup ∧
    (∀ s : ℤ, s ∈ out.detailedCols ↔
      (s ∈ outScores out.scored ∨ s ∈ ([1, 2, 3, 4, 5] : List ℤ))) ∧
    ((∀ s ∈ out.detailedCols, 1 ≤ s ∧ s ≤ 5) → out.detailedCols.length = 5) ∧
    (∀ t ∈ out.detailed, t.2.1.length = out.detailedCols.length ∧ t.2.2 = t.2.1.sum) := by
  obtain ⟨hlu, hcs, zs, hall, hout⟩ := runAnalysis_ok_inv h
  have hplen : (preparedGdf rp c g).rows.length = zs.length := by
    have := congrArg List.length (allInt_eq hall)
    simpa using this
  have hcsg : "compat_score" ∉ g.cols := by
    intro hmem
    apply hcs
    rw [preparedGdf_cols]
    by_cases hu : "unique_id" ∈ g.cols
    · simpa [hu] using hmem
    · simp [hu, hmem]
  have hkeys : ∀ r ∈ (preparedGdf rp c g).rows, attrLookup r.attrs "compat_score" = none :=
    preparedGdf_compat_none rp c hwf hcsg
  have hsc : outScores out.scored = zs := by
    rw [hout]
    exact outScores_zip _ _ hplen hkeys
  have hov : out.overall = overallSummary zs := by
    rw [hout]
    rfl
  have hdc : out.detailedCols = detailedCols zs := by
    rw [hout]
    rfl
  have hdet : out.detailed = detailedTable
      (((preparedGdf rp c g).rows.zip zs).map
        (fun p => ((rowLu lu p.1).getD (Value.str ""), p.2))) := by
    rw [hout]
    rfl
  refine ⟨?_, ?_, ?_, ?_, ?_, ?_, ?_, ?_⟩
  · rw [hov]
    exact overallSummary_length zs
  · rw [hov]
    exact overallSummary_map_fst zs
  · rw [hov, hsc]
    exact overallSummary_count zs
  · rw [hdc]
    exact detailedCols_sorted zs
  · rw [hdc]
    exact detailedCols_nodup zs
  · intro s
    rw [hdc, hsc]
    exact mem_detailedCols zs s
  · rw [hdc]
    exact detailedCols_length_five zs
  · intro t ht
    rw [hdet] at ht
    have hrow := detailedTable_rows _ t ht
    have hpcs : ((((preparedGdf rp c g).rows.zip zs).map
        (fun p => ((rowLu lu p.1).getD (Value.str ""), p.2))).map (fun p => p.2)) = zs :=
      zip_map_snd (fun r => (rowLu lu r).getD (Value.str "")) _ _ hplen
    rw [hpcs] at hrow
    rw [hdc]
    exact hrow

/-- C5 witness: the amended report shapes at a concrete empty run. -/
theorem C5_witness :
    (okOr (runAnalysis id CRS.projected gEmpty [] "use" 1) emptyOutput).overall.length = 5 ∧
    (okOr (runAnalysis id CRS.projected gEmpty [] "use" 1) emptyOutput).overall.map
      (fun r => r.1) = [1, 2, 3, 4, 5] ∧
    (∀ r ∈ (okOr (runAnalysis id CRS.projected gEmpty [] "use" 1) emptyOutput).overall,
      r.2.1 = (outScores (okOr (runAnalysis id CRS.projected gEmpty [] "use" 1)
        emptyOutput).scored).count r.1) ∧
    List.Sorted (fun a b : ℤ => a ≤ b)
      (okOr (runAnalysis id CRS.projected gEmpty [] "use" 1) emptyOutput).detailedCols ∧
    (okOr (runAnalysis id CRS.projected gEmpty [] "use" 1) emptyOutput).detailedCols.Nodup ∧
    (∀ s : ℤ, s ∈ (okOr (runAnalysis id CRS.projected gEmpty [] "use" 1)
        emptyOutput).detailedCols ↔
      (s ∈ outScores (okOr (runAnalysis id CRS.projected gEmpty [] "use" 1)
        emptyOutput).scored ∨ s ∈ ([1, 2, 3, 4, 5] : List ℤ))) ∧
    ((∀ s ∈ (okOr (runAnalysis id CRS.projected gEmpty [] "use" 1)
        emptyOutput).detailedCols, 1 ≤ s ∧ s ≤ 5) →
      (okOr (runAnalysis id CRS.projected gEmpty [] "use" 1)
        emptyOutput).detailedCols.length = 5) ∧
    (∀ t ∈ (okOr (runAnalysis id CRS.projected gEmpty [] "use" 1) emptyOutput).detailed,
      t.2.1.length = (okOr (runAnalysis id CRS.projected gEmpty [] "use" 1)
        emptyOutput).detailedCols.length ∧ t.2.2 = t.2.1.sum) :=
  @C5_report_shapes id CRS.projected gEmpty [] "use" 1
    (okOr (runAnalysis id CRS.projected gEmpty [] "use" 1) emptyOutput)
    (by with_unfolding_all rfl) (by decide)

end GlassBox
